import Mathlib

/-!
Shallow embedding of the openMHA plugin `ac2lsl`
(src/mha/plugins/ac2lsl/ac2lsl.cpp).

The plugin exports AC (algorithm communication) variables as LSL
(lab streaming layer) network streams.  The embedding models:

* the MHA type tags (`MHA_AC_*` constants from mha.h; only their
  distinctness matters for dispatch),
* AC variable descriptors (`comm_var_t`),
* the typed bridge adapters (`save_var_t` instances, collapsed into one
  record `save_var`, since all concrete variants carry the same
  observable state: a stream info, a buffer address and a type tag),
* the factory `make_or_replace_var` (lines 371-402), modelled by
  `make_var` which builds the adapter placed into the registry,
* per-variable reconciliation, the loop body of `update_varlist`
  (lines 347-369),
* the runtime configuration `cfg_t` with its constructor (317-332) and
  `process` (334-345),
* the plugin-level `process` with the one-time real-time-safety check
  and the `activate` gate (253-275),
* `update` computing the advertised stream rate (277-283),
* `get_all_names_from_ac_space` with its doubling-buffer retry loop
  (285-315).

Pointers are modelled as natural-number addresses (only identity
comparisons occur in the source).  `float`/`double` scalars are
modelled as rationals.  Fallible code returns `Except MHAErr`.
-/

namespace Ac2lsl

/-! ### MHA type tags (mha.h)

Only distinctness and the dispatch on them matter. -/

def MHA_AC_UNKNOWN : Nat := 0
def MHA_AC_CHAR : Nat := 1
def MHA_AC_INT : Nat := 2
def MHA_AC_MHAREAL : Nat := 3
def MHA_AC_FLOAT : Nat := 4
def MHA_AC_DOUBLE : Nat := 5
def MHA_AC_MHACOMPLEX : Nat := 6

/-- Opaque pointer value; the source only compares pointers for identity
and passes them around, so a natural number suffices. -/
abbrev Addr := Nat

/-- AC variable descriptor, mirroring `comm_var_t` (type id, number of
entries, data pointer; the stride field is unused by ac2lsl). -/
structure comm_var_t where
  data_type : Nat
  num_entries : Nat
  data : Addr
deriving DecidableEq, Repr

/-- Errors thrown via `MHA_Error` / `MHA_ErrorMsg` in the source. -/
inductive MHAErr where
  /-- "Unknown data type" in `make_or_replace_var` (line 399). -/
  | unknownType (t : Nat)
  /-- "No such variable" in the `cfg_t` constructor and
  `update_varlist` (lines 328, 351). -/
  | noSuchVariable (name : String)
  /-- "list of all ac variables is longer than 1MiB" (line 298). -/
  | discoveryOverflow
  /-- "Bug: ac handle used is invalid" (line 310). -/
  | acHandleInvalid
  /-- "ac2lsl used in real-time thread with rt-strict=true" (line 267). -/
  | rtViolation
  /-- "could not retrieve thread scheduling parameters" (line 264). -/
  | schedParamFailure
deriving DecidableEq, Repr

/-- The metadata baked into an `lsl::stream_info` at adapter
construction (name, type label, channel count, nominal rate, source id). -/
structure stream_info where
  name : String
  type_label : String
  channel_count : Nat
  srate : ℚ
  source_id : String
deriving DecidableEq, Repr

/-- One ac-to-lsl bridge adapter (`save_var_t<T>` object).  All template
instances expose the same observable state: the stream info fixed at
construction, the cached buffer address (`buf`), and the MHA type id
returned by `data_type()` (the complex specialization hard-codes
`MHA_AC_MHACOMPLEX`, which is also the only tag it is built for). -/
structure save_var where
  info : stream_info
  buf : Addr
  data_type : Nat
deriving DecidableEq, Repr

/-- The AC space as seen through `get_var`: name to current descriptor,
`none` when the lookup fails. -/
abbrev AcSpace := String → Option comm_var_t

/-! ### Bridge factory: `cfg_t::make_or_replace_var`, lines 371-402

`make_var` builds the adapter that `make_or_replace_var` stores into
`varlist[name]`; the map insertion itself is performed by the callers in
this embedding (registry construction and reconciliation). -/

def make_var (name : String) (srate : ℚ) (source_id : String) (v : comm_var_t) :
    Except MHAErr save_var :=
  if v.data_type = MHA_AC_INT then
    .ok ⟨⟨name, "MHA_AC_INT", v.num_entries, srate, source_id⟩, v.data, v.data_type⟩
  else if v.data_type = MHA_AC_FLOAT then
    .ok ⟨⟨name, "MHA_AC_FLOAT", v.num_entries, srate, source_id⟩, v.data, v.data_type⟩
  else if v.data_type = MHA_AC_DOUBLE then
    .ok ⟨⟨name, "MHA_AC_DOUBLE", v.num_entries, srate, source_id⟩, v.data, v.data_type⟩
  else if v.data_type = MHA_AC_MHAREAL then
    .ok ⟨⟨name, "MHA_AC_MHAREAL", v.num_entries, srate, source_id⟩, v.data, v.data_type⟩
  else if v.data_type = MHA_AC_MHACOMPLEX then
    .ok ⟨⟨name, "MHA_AC_COMPLEX", 2 * v.num_entries, srate, source_id⟩, v.data,
         MHA_AC_MHACOMPLEX⟩
  else
    .error (.unknownType v.data_type)

/-- The channel count the source expects for a descriptor, as computed
inline at lines 363-364:
`v.data_type==MHA_AC_MHACOMPLEX ? v.num_entries*2 : v.num_entries`. -/
def expected_channel_count (v : comm_var_t) : Nat :=
  if v.data_type = MHA_AC_MHACOMPLEX then 2 * v.num_entries else v.num_entries

/-! ### Reconciliation: `cfg_t::update_varlist`, lines 347-369 -/

/-- Observable outcome of reconciling one adapter, for stating the
claims about repoints vs rebuilds. -/
inductive recon_action where
  | set_address (a : Addr)
  | rebuild
  | noop
deriving DecidableEq, Repr

/-- The per-variable body of the `update_varlist` loop after the
descriptor has been resolved (lines 353-367), returning the new adapter
together with which path was taken:
1. address differs, `channel_count() == v.num_entries`, type equal:
   `set_buf_address` and continue;
2. type differs: `make_or_replace_var`;
3. channel count differs from the expected channel count:
   `make_or_replace_var`;
4. otherwise nothing. -/
def update_var (name : String) (srate : ℚ) (source_id : String)
    (a : save_var) (v : comm_var_t) : Except MHAErr (save_var × recon_action) :=
  if a.buf ≠ v.data ∧ a.info.channel_count = v.num_entries ∧ a.data_type = v.data_type then
    .ok ({a with buf := v.data}, .set_address v.data)
  else if a.data_type ≠ v.data_type then
    (make_var name srate source_id v).map (fun a' => (a', .rebuild))
  else if a.info.channel_count ≠ expected_channel_count v then
    (make_var name srate source_id v).map (fun a' => (a', .rebuild))
  else
    .ok (a, .noop)

/-- One iteration of the `update_varlist` loop, including the
`get_var` lookup that throws "No such variable" (lines 348-352). -/
def reconcile_entry (ac : AcSpace) (srate : ℚ) (source_id : String)
    (name : String) (a : save_var) : Except MHAErr (save_var × recon_action) :=
  match ac name with
  | none => .error (.noSuchVariable name)
  | some v => update_var name srate source_id a v

/-- `cfg_t::update_varlist` over the whole registry (modelled as an
association list in map iteration order), collecting the action taken
for each entry. -/
def update_varlist (ac : AcSpace) (srate : ℚ) (source_id : String) :
    List (String × save_var) →
    Except MHAErr (List (String × save_var) × List (String × recon_action))
  | [] => .ok ([], [])
  | (name, a) :: rest => do
    let (a', act) ← reconcile_entry ac srate source_id name a
    let (rest', acts) ← update_varlist ac srate source_id rest
    .ok ((name, a') :: rest', (name, act) :: acts)

/-! ### Runtime configuration: `cfg_t`, lines 136-165 and 317-345 -/

/-- Runtime configuration state: the registry (`varlist`), the skip
counter, the configured skip interval, the stream rate and source id
handed to the factory on rebuilds. -/
structure cfg_t where
  varlist : List (String × save_var)
  skipcnt : Nat
  skip : Nat
  srate : ℚ
  source_id : String
deriving DecidableEq, Repr

/-- The constructor loop of `cfg_t` (lines 325-331): resolve each
requested name and build its adapter, failing on a missing name or an
unknown type. -/
def build_varlist (ac : AcSpace) (srate : ℚ) (source_id : String) :
    List String → Except MHAErr (List (String × save_var))
  | [] => .ok []
  | name :: rest =>
    match ac name with
    | none => .error (.noSuchVariable name)
    | some v => do
      let a ← make_var name srate source_id v
      let rest' ← build_varlist ac srate source_id rest
      .ok ((name, a) :: rest')

/-- `cfg_t::cfg_t` (lines 317-332): `skipcnt` and `skip` are both
initialized from the `skip_` argument (lines 319-320). -/
def cfg_init (ac : AcSpace) (skip_ : Nat) (source_id : String)
    (varnames : List String) (rate : ℚ) : Except MHAErr cfg_t := do
  let vl ← build_varlist ac rate source_id varnames
  .ok ⟨vl, skip_, skip_, rate, source_id⟩

/-- Observable outcome of one `cfg_t::process` call: the new state,
whether the send branch ran, which adapters sent a frame (in registry
order), and the reconciliation action taken for every adapter. -/
structure proc_result where
  cfg : cfg_t
  did_send : Bool
  sent : List String
  actions : List (String × recon_action)
deriving DecidableEq, Repr

/-- `cfg_t::process` (lines 334-345): reconcile the whole registry
first, then either send every adapter and reset `skipcnt` to `skip`
(when `skipcnt == 0`) or decrement `skipcnt` and send nothing. -/
def cfg_process (ac : AcSpace) (c : cfg_t) : Except MHAErr proc_result := do
  let (vl, acts) ← update_varlist ac c.srate c.source_id c.varlist
  if c.skipcnt = 0 then
    .ok ⟨{c with varlist := vl, skipcnt := c.skip}, true, vl.map Prod.fst, acts⟩
  else
    .ok ⟨{c with varlist := vl, skipcnt := c.skipcnt - 1}, false, [], acts⟩

/-- Iterate `cfg_t::process` over consecutive cycles, recording for
each cycle whether the send branch ran. -/
def cfg_run (ac : AcSpace) : Nat → cfg_t → Except MHAErr (cfg_t × List Bool)
  | 0, c => .ok (c, [])
  | n + 1, c => do
    let r ← cfg_process ac c
    let (c', flags) ← cfg_run ac n r.cfg
    .ok (c', r.did_send :: flags)

/-! ### Plugin-level process: `ac2lsl_t::process`, lines 253-275 -/

/-- Thread scheduling policy as inspected through
`pthread_getschedparam`. -/
inductive SchedPolicy where
  | sched_other
  | sched_fifo
  | sched_rr
deriving DecidableEq, Repr

/-- Plugin-level state relevant to `process`: the one-time-check flag,
the `rt_strict` and `activate` parser variables, and the current
runtime configuration. -/
structure plugin_state where
  is_first_run : Bool
  rt_strict : Bool
  activate : Bool
  cfg : cfg_t
deriving DecidableEq, Repr

/-- The one-time real-time-safety check (lines 255-271).  `sched` is
the outcome of `pthread_getschedparam` on the calling thread: an error
models a nonzero return code.  The check runs only on the first call
and only when `rt_strict` is set; it throws when the policy is
`SCHED_FIFO` or `SCHED_RR`.  (The source clears `is_first_run` before
throwing; after an error processing is aborted, so only the non-error
state is carried onward here.) -/
def rt_check (sched : Except MHAErr SchedPolicy) (st : plugin_state) :
    Except MHAErr plugin_state :=
  if st.is_first_run then
    if st.rt_strict then
      match sched with
      | .error _ => .error .schedParamFailure
      | .ok p =>
        if p = .sched_fifo ∨ p = .sched_rr then .error .rtViolation
        else .ok {st with is_first_run := false}
    else .ok st
  else .ok st

/-- `ac2lsl_t::process` (lines 253-275): run the one-time check, then
forward to `cfg_t::process` only when `activate` is set; when it is
not, nothing is reconciled and nothing is sent. -/
def plugin_process (sched : Except MHAErr SchedPolicy) (ac : AcSpace)
    (st : plugin_state) :
    Except MHAErr (plugin_state × List String × List (String × recon_action)) := do
  let st1 ← rt_check sched st
  if st1.activate then do
    let r ← cfg_process ac st1.cfg
    .ok ({st1 with cfg := r.cfg}, r.sent, r.actions)
  else
    .ok (st1, [], [])

/-! ### Configuration update: `ac2lsl_t::update`, lines 277-283 -/

/-- The nominal stream rate computed in `update`:
`input_cfg().srate / input_cfg().fragsize / (skip.data + 1.0f)`. -/
def update_rate (srate : ℚ) (fragsize : Nat) (skip_ : Nat) : ℚ :=
  srate / (fragsize : ℚ) / ((skip_ : ℚ) + 1)

/-- `ac2lsl_t::update`: build a fresh runtime configuration (hence
fresh adapters and fresh stream outlets) whose advertised rate already
accounts for the fragment size and the throttle. -/
def ac2lsl_update (ac : AcSpace) (srate : ℚ) (fragsize : Nat) (skip_ : Nat)
    (source_id : String) (varnames : List String) : Except MHAErr cfg_t :=
  cfg_init ac skip_ source_id varnames (update_rate srate fragsize skip_)

/-! ### Frame contents: `send_frame` and the flat memory model

`lsl::stream_outlet::push_sample(p)` reads `channel_count` consecutive
scalars starting at `p`.  Memory is modelled as a flat array of scalars
indexed by address.  The complex specialization (lines 124-128) pushes
starting at `&buf[0].re` with the stream declared as `2*n` channels; an
`mha_complex_t` array lays `re` and `im` out adjacently, which is
expressed by the `pairs_at` predicate below. -/

/-- Flat scalar memory. -/
abbrev Mem := Nat → ℚ

/-- `push_sample`: read `chans` consecutive scalars at `addr`. -/
def push_sample (mem : Mem) (addr : Addr) (chans : Nat) : List ℚ :=
  (List.range chans).map (fun i => mem (addr + i))

/-- `save_var_t::send_frame` / the complex specialization: one sample of
`channel_count` scalars starting at the cached buffer address. -/
def send_frame (mem : Mem) (a : save_var) : List ℚ :=
  push_sample mem a.buf a.info.channel_count

/-- The memory at `addr` holds the complex values `p` as adjacent
(re, im) scalar pairs: the layout of an `mha_complex_t[]`. -/
def pairs_at (mem : Mem) (addr : Addr) (p : List (ℚ × ℚ)) : Prop :=
  ∀ i, i < p.length →
    mem (addr + 2 * i) = (p.getD i (0, 0)).1 ∧
    mem (addr + 2 * i + 1) = (p.getD i (0, 0)).2

/-! ### Catalogue enumeration: `get_all_names_from_ac_space`,
lines 285-315

The loop body doubles `cstr_len` (initially 512), throws once the
doubled size exceeds 1 MiB, calls `get_entries` and repeats while the
return code is -3 (buffer too small); a -1 return (invalid handle)
exits the loop and throws afterwards.  `get_entries` is modelled by the
number of bytes `B` the serialized listing needs (it fits when
`B ≤ buffer size`) plus a flag for an invalid handle.  The recursion is
indexed by the number `j` of doublings already performed, so the buffer
size tried at step `j` is `512 * 2 ^ (j + 1)`. -/

def get_all_names_aux (invalid : Bool) (B : Nat) (j : Nat) : Except MHAErr Nat :=
  if hceil : 512 * 2 ^ (j + 1) > 1048576 then .error .discoveryOverflow
  else if invalid then .error .acHandleInvalid
  else if h : B > 512 * 2 ^ (j + 1) then get_all_names_aux invalid B (j + 1)
  else .ok (512 * 2 ^ (j + 1))
termination_by 11 - j
decreasing_by
  push_neg at hceil
  have h3 : j + 1 ≤ 11 := by
    by_contra hc
    push_neg at hc
    have : (2 : Nat) ^ 12 ≤ 2 ^ (j + 1) := Nat.pow_le_pow_right (by norm_num) hc
    omega
  omega

/-- `get_all_names_from_ac_space`, as the size of the buffer that
finally succeeded (the names themselves are just the parse of its
contents). -/
def get_all_names (invalid : Bool) (B : Nat) : Except MHAErr Nat :=
  get_all_names_aux invalid B 0

/-! ### Concrete sample values used by counterexamples and witnesses -/

/-- The adapter the factory builds for a DomainComplex variable with one
entry at address 100 (stream declared with 2 channels). -/
def aCx1 : save_var := ⟨⟨"z", "MHA_AC_COMPLEX", 2, 1, ""⟩, 100, MHA_AC_MHACOMPLEX⟩

/-- A float adapter for a 4-entry variable at address 10. -/
def levelAdapter : save_var := ⟨⟨"level", "MHA_AC_FLOAT", 4, 1, ""⟩, 10, MHA_AC_FLOAT⟩

/-- An AC space holding one float variable "level" with 4 entries. -/
def ac1 : AcSpace := fun n => if n = "level" then some ⟨MHA_AC_FLOAT, 4, 10⟩ else none

/-- The runtime configuration built for "level" with skip interval 1. -/
def cfgRun1 : cfg_t := ⟨[("level", levelAdapter)], 1, 1, 1, ""⟩

/-- Outcome of one `cfg_t::process` call on `cfgRun1`: reconciled
(no-op), nothing sent, counter decremented. -/
def procR1 : proc_result :=
  ⟨⟨[("level", levelAdapter)], 0, 1, 1, ""⟩, false, [], [("level", recon_action.noop)]⟩

/-- A complex adapter built when the variable had one entry (2-channel
stream), cached address 5. -/
def aCx2 : save_var := ⟨⟨"spec", "MHA_AC_COMPLEX", 2, 1, ""⟩, 5, MHA_AC_MHACOMPLEX⟩

/-- An empty runtime configuration. -/
def cfg0 : cfg_t := ⟨[], 0, 0, 1, ""⟩

/-- Memory holding the six scalars 1..6 at addresses 0..5. -/
def mem6 : Mem := fun k => ([1, 2, 3, 4, 5, 6] : List ℚ).getD k 0

/-- The adapter the factory builds for a DomainComplex variable with
three entries at address 0 (6-channel stream). -/
def aC5 : save_var := ⟨⟨"spec", "MHA_AC_COMPLEX", 6, 1, ""⟩, 0, MHA_AC_MHACOMPLEX⟩

/-- The configuration `update` builds for "level" at pipeline rate
48000, fragment size 64, skip 1. -/
def c10cfg : cfg_t :=
  ⟨[("level", ⟨⟨"level", "MHA_AC_FLOAT", 4, update_rate 48000 64 1, ""⟩, 10, MHA_AC_FLOAT⟩)],
   1, 1, update_rate 48000 64 1, ""⟩

/-! ### Helper lemmas -/

/-- What the factory guarantees about every adapter it builds: the
cached address, the reported type id, the declared channel count and
the advertised rate. -/
theorem make_var_spec {name : String} {srate : ℚ} {sid : String}
    {v : comm_var_t} {a : save_var} (h : make_var name srate sid v = .ok a) :
    a.buf = v.data ∧ a.data_type = v.data_type ∧
    a.info.channel_count = expected_channel_count v ∧ a.info.srate = srate := by
  unfold make_var at h
  unfold expected_channel_count
  split_ifs at h with h1 h2 h3 h4 h5 <;>
    simp only [Except.ok.injEq] at h <;>
    subst h <;>
    simp_all [MHA_AC_INT, MHA_AC_FLOAT, MHA_AC_DOUBLE, MHA_AC_MHAREAL, MHA_AC_MHACOMPLEX]

/-- Monadic bind on `Except.ok` reduces to application. -/
@[simp] theorem ok_bind {α β ε : Type _} (a : α) (f : α → Except ε β) :
    (Except.ok a >>= f) = f a := rfl

/-- Monadic bind on `Except.error` propagates the error. -/
@[simp] theorem error_bind {α β ε : Type _} (e : ε) (f : α → Except ε β) :
    ((Except.error e : Except ε α) >>= f) = Except.error e := rfl

/-- Characterization of one `cfg_t::process` call that returned
normally: the registry was reconciled first, the configured parameters
survive, the send branch ran exactly when the counter was zero, and the
counter was reset or decremented accordingly. -/
theorem cfg_process_spec {ac : AcSpace} {c : cfg_t} {r : proc_result}
    (h : cfg_process ac c = .ok r) :
    update_varlist ac c.srate c.source_id c.varlist = .ok (r.cfg.varlist, r.actions) ∧
    r.cfg.skip = c.skip ∧ r.cfg.srate = c.srate ∧ r.cfg.source_id = c.source_id ∧
    r.did_send = decide (c.skipcnt = 0) ∧
    r.cfg.skipcnt = (if c.skipcnt = 0 then c.skip else c.skipcnt - 1) ∧
    r.sent = (if c.skipcnt = 0 then r.cfg.varlist.map Prod.fst else []) := by
  unfold cfg_process at h
  cases hu : update_varlist ac c.srate c.source_id c.varlist with
  | error e => rw [hu] at h; simp at h
  | ok p =>
    rw [hu] at h
    obtain ⟨vl, acts⟩ := p
    by_cases hz : c.skipcnt = 0 <;>
      simp only [ok_bind, hz, if_true, if_false, ite_true, ite_false,
                 Except.ok.injEq] at h <;>
      subst h <;> simp [hz]

/-- Reconciliation touches every adapter: the reconciled registry and
the action list both carry exactly the original names, in order. -/
theorem update_varlist_names {ac : AcSpace} {srate : ℚ} {sid : String} :
    ∀ {vl vl' : List (String × save_var)} {acts : List (String × recon_action)},
      update_varlist ac srate sid vl = .ok (vl', acts) →
      vl'.map Prod.fst = vl.map Prod.fst ∧ acts.map Prod.fst = vl.map Prod.fst := by
  intro vl
  induction vl with
  | nil =>
    intro vl' acts h
    simp only [update_varlist, Except.ok.injEq, Prod.mk.injEq] at h
    simp [← h.1, ← h.2]
  | cons hd tl ih =>
    intro vl' acts h
    obtain ⟨name, a⟩ := hd
    simp only [update_varlist] at h
    cases hre : reconcile_entry ac srate sid name a with
    | error e => rw [hre] at h; simp at h
    | ok pa =>
      rw [hre] at h
      obtain ⟨a', act⟩ := pa
      cases hrest : update_varlist ac srate sid tl with
      | error e => rw [hrest] at h; simp at h
      | ok pr =>
        rw [hrest] at h
        obtain ⟨rest', acts'⟩ := pr
        simp only [ok_bind, Except.ok.injEq, Prod.mk.injEq] at h
        have hih := ih hrest
        simp [← h.1, ← h.2, hih.1, hih.2]

/-- Trajectory of the throttle over consecutive successful cycles:
starting from a counter value `skipcnt ≤ skip`, cycle `i` runs the send
branch exactly when `(skip - skipcnt + i) % (skip + 1) = skip`. -/
theorem cfg_run_flags {ac : AcSpace} :
    ∀ (n : Nat) (c c' : cfg_t) (flags : List Bool),
      c.skipcnt ≤ c.skip → cfg_run ac n c = .ok (c', flags) →
      ∀ i, i < n →
        flags.get? i = some (decide ((c.skip - c.skipcnt + i) % (c.skip + 1) = c.skip)) := by
  intro n
  induction n with
  | zero => intro c c' flags _ _ i hi; omega
  | succ n ih =>
    intro c c' flags hle hrun i hi
    simp only [cfg_run] at hrun
    cases hp : cfg_process ac c with
    | error e => rw [hp] at hrun; simp at hrun
    | ok r =>
      rw [hp] at hrun
      simp only [ok_bind] at hrun
      cases hr : cfg_run ac n r.cfg with
      | error e => rw [hr] at hrun; simp at hrun
      | ok q =>
        rw [hr] at hrun
        obtain ⟨c'', flags'⟩ := q
        simp only [ok_bind, Except.ok.injEq, Prod.mk.injEq] at hrun
        obtain ⟨hspec1, hskip, _, _, hsend, hcnt, _⟩ := cfg_process_spec hp
        cases i with
        | zero =>
          rw [← hrun.2, List.get?_cons_zero, hsend]
          have : (c.skipcnt = 0) ↔ ((c.skip - c.skipcnt + 0) % (c.skip + 1) = c.skip) := by
            have h1 : c.skip - c.skipcnt + 0 = c.skip - c.skipcnt := by omega
            rw [h1, Nat.mod_eq_of_lt (by omega)]
            omega
          rw [Option.some.injEq, decide_eq_decide]
          exact this
        | succ i =>
          rw [← hrun.2, List.get?_cons_succ]
          have hle' : r.cfg.skipcnt ≤ r.cfg.skip := by
            rw [hskip, hcnt]; split <;> omega
          have hres := ih r.cfg c'' flags' hle' hr i (by omega)
          rw [hres]
          congr 1
          simp only [decide_eq_decide]
          rw [hskip, hcnt]
          by_cases hz : c.skipcnt = 0
          · simp only [hz, if_true, ite_true]
            have h1 : c.skip - c.skip + i = i := by omega
            have h2 : c.skip - 0 + (i + 1) = (c.skip + 1) + i := by omega
            rw [h1, h2, Nat.add_mod_left]
          · simp only [hz, if_false, ite_false]
            have h1 : c.skip - (c.skipcnt - 1) + i = c.skip - c.skipcnt + (i + 1) := by
              omega
            rw [h1]

/-- Reading `k + 1` consecutive scalars splits off the first one. -/
theorem push_sample_succ (mem : Mem) (addr k : Nat) :
    push_sample mem addr (k + 1) = mem addr :: push_sample mem (addr + 1) k := by
  unfold push_sample
  rw [List.range_succ_eq_map]
  simp only [List.map_cons, List.map_map, Nat.add_zero]
  congr 1
  apply List.map_congr_left
  intro i _
  simp only [Function.comp_apply]
  congr 1
  omega

/-- Reading `2 * n` consecutive scalars over a memory that lays out `n`
(re, im) pairs yields the interleaved sequence re₀, im₀, re₁, im₁, …. -/
theorem pairs_read :
    ∀ (p : List (ℚ × ℚ)) (mem : Mem) (addr : Nat),
      pairs_at mem addr p →
      push_sample mem addr (2 * p.length) = p.flatMap (fun q => [q.1, q.2]) := by
  intro p
  induction p with
  | nil => intro mem addr _; simp [push_sample]
  | cons q rest ih =>
    intro mem addr h
    have hlen : 2 * (q :: rest).length = 2 * rest.length + 1 + 1 := by
      rw [List.length_cons]; omega
    rw [hlen, push_sample_succ, push_sample_succ]
    have haddr : addr + 1 + 1 = addr + 2 := by omega
    rw [haddr]
    have h0 := h 0 (by rw [List.length_cons]; omega)
    simp only [Nat.mul_zero, Nat.add_zero, List.getD_cons_zero] at h0
    have htail : pairs_at mem (addr + 2) rest := by
      intro i hi
      have := h (i + 1) (by rw [List.length_cons]; omega)
      simp only [List.getD_cons_succ] at this
      constructor
      · have ha : addr + 2 * (i + 1) = addr + 2 + 2 * i := by omega
        rw [ha] at this; exact this.1
      · have ha : addr + 2 * (i + 1) + 1 = addr + 2 + 2 * i + 1 := by omega
        rw [ha] at this; exact this.2
    rw [ih mem (addr + 2) htail]
    simp [h0.1, h0.2]

/-- Every adapter built through the `cfg_t` constructor loop advertises
the rate handed to the factory. -/
theorem build_varlist_srate {ac : AcSpace} {r : ℚ} {s : String} :
    ∀ {names : List String} {vl : List (String × save_var)},
      build_varlist ac r s names = .ok vl →
      ∀ p ∈ vl, p.2.info.srate = r := by
  intro names
  induction names with
  | nil =>
    intro vl h
    simp only [build_varlist, Except.ok.injEq] at h
    simp [← h]
  | cons name rest ih =>
    intro vl h
    simp only [build_varlist] at h
    cases hv : ac name with
    | none => rw [hv] at h; simp at h
    | some v =>
      rw [hv] at h
      simp only [] at h
      cases hm : make_var name r s v with
      | error e => rw [hm] at h; simp at h
      | ok a =>
        rw [hm] at h
        cases hrest : build_varlist ac r s rest with
        | error e => rw [hrest] at h; simp at h
        | ok rest' =>
          rw [hrest] at h
          simp only [ok_bind, Except.ok.injEq] at h
          intro p hp
          rw [← h] at hp
          rcases List.mem_cons.mp hp with hhd | htl
          · rw [hhd]; exact (make_var_spec hm).2.2.2
          · exact ih hrest p htl

/-- The doubling loop succeeds for any listing that fits within the
1 MiB ceiling: starting at doubling step `j ≤ 10` it returns a buffer
size that accommodates `B` and never exceeds the ceiling. -/
theorem get_all_names_aux_le {B : Nat} (hB : B ≤ 1048576) :
    ∀ (d j : Nat), 11 - j ≤ d → j ≤ 10 →
      ∃ len, get_all_names_aux false B j = .ok len ∧ B ≤ len ∧ len ≤ 1048576 := by
  intro d
  induction d with
  | zero => intro j hd hj; omega
  | succ d ih =>
    intro j hd hj
    have hpow : 2 ^ (j + 1) ≤ 2 ^ 11 := Nat.pow_le_pow_right (by norm_num) (by omega)
    have h11 : (2 : Nat) ^ 11 = 2048 := by norm_num
    have hceil : ¬(512 * 2 ^ (j + 1) > 1048576) := by omega
    rw [get_all_names_aux, dif_neg hceil, if_neg (by simp)]
    by_cases hgt : B > 512 * 2 ^ (j + 1)
    · rw [dif_pos hgt]
      have hj' : j + 1 ≤ 10 := by
        by_contra hc
        push_neg at hc
        have hj10 : j = 10 := by omega
        subst hj10
        omega
      exact ih (j + 1) (by omega) hj'
    · rw [dif_neg hgt]
      push_neg at hgt
      exact ⟨512 * 2 ^ (j + 1), rfl, hgt, by omega⟩

/-- The doubling loop gives up with the discovery-overflow error for
any listing larger than the 1 MiB ceiling. -/
theorem get_all_names_aux_overflow {B : Nat} (hB : 1048576 < B) :
    ∀ (d j : Nat), 11 - j ≤ d →
      get_all_names_aux false B j = .error .discoveryOverflow := by
  intro d
  induction d with
  | zero =>
    intro j hd
    have hpow : 2 ^ 12 ≤ 2 ^ (j + 1) := Nat.pow_le_pow_right (by norm_num) (by omega)
    have h12 : (2 : Nat) ^ 12 = 4096 := by norm_num
    rw [get_all_names_aux, dif_pos (by omega)]
  | succ d ih =>
    intro j hd
    rw [get_all_names_aux]
    by_cases hceil : 512 * 2 ^ (j + 1) > 1048576
    · rw [dif_pos hceil]
    · rw [dif_neg hceil, if_neg (by simp), dif_pos (by omega)]
      exact ih (j + 1) (by omega)

/-! ### Claim theorems -/

/-- Claim C1: the claim says an address-only change (same type tag, same
element count) triggers exactly one `set_address` for every supported
type tag including DomainComplex.  The code violates this for
DomainComplex: `update_varlist` compares the adapter channel count (2n)
against the raw `num_entries` (n), so for a 1-entry complex variable
whose address moved from 100 to 200 the reconciliation pass performs
neither a `set_address` nor a rebuild and the adapter keeps pushing from
the stale address 100. -/
theorem complex_address_change_ignored :
    make_var "z" 1 "" ⟨MHA_AC_MHACOMPLEX, 1, 100⟩ = .ok aCx1 ∧
    update_var "z" 1 "" aCx1 ⟨MHA_AC_MHACOMPLEX, 1, 200⟩ = .ok (aCx1, .noop) ∧
    aCx1.buf = 100 :=
  ⟨rfl, rfl, rfl⟩

/-- Claim C2 counterexample: with `skip_interval = 1`, emission active
and a fresh configuration, the send pattern over cycles 0,1,2,3 is
skip, send, skip, send — cycle 0 does not send, contradicting the claim
that cycle 0 always sends and that the pattern is send, skip, …. -/
theorem cycle_zero_does_not_send :
    Except.map Prod.snd (cfg_run ac1 4 cfgRun1) = .ok [false, true, false, true] := rfl

/-- Claim C2 (amended): with `skip_interval = k` and emission active,
a fresh configuration (`skipcnt = skip`) sends on cycle `i` exactly when
`i % (k + 1) = k`; in particular cycle 0 sends only when `k = 0`, and
with `skip_interval = 1` the pattern over cycles 0,1,2,… is
skip, send, skip, send, …. -/
theorem send_pattern_skip_first (ac : AcSpace) (c c' : cfg_t) (n : Nat)
    (flags : List Bool) (hfresh : c.skipcnt = c.skip)
    (hrun : cfg_run ac n c = .ok (c', flags)) :
    ∀ i, i < n → flags.get? i = some (decide (i % (c.skip + 1) = c.skip)) := by
  intro i hi
  have := cfg_run_flags n c c' flags (by omega) hrun i hi
  rw [this, hfresh, Nat.sub_self, Nat.zero_add]

/-- Witness for the amended Claim C2 at `skip_interval = 1`. -/
theorem send_pattern_skip_first_witness :
    ([false, true] : List Bool).get? 0 =
      some (decide (0 % (cfgRun1.skip + 1) = cfgRun1.skip)) :=
  send_pattern_skip_first ac1 cfgRun1 cfgRun1 2 [false, true] rfl rfl 0 (by norm_num)

/-- Claim C3 counterexample: on the very first `process()` call with
`rt_strict` enabled and the thread scheduled under a real-time policy,
the call throws the real-time-safety error even though `activate` is
off — so a process() call with the activate switch off is not always
error-free. -/
theorem deactivated_first_call_can_throw :
    plugin_process (.ok .sched_fifo) (fun _ => none) ⟨true, true, false, cfg0⟩ =
      .error .rtViolation := rfl

/-- Claim C3 (amended): when the activate switch is off, `process()`
performs no reconciliation, emits nothing and returns without error
whenever the one-time real-time-safety check does not fail — that is,
when it has already run, or `rt_strict` is off, or the calling thread
is not scheduled under a real-time policy.  The configuration state is
untouched; the only effect is that a first call with `rt_strict` on
consumes the first-run flag.  On the very first call with `rt_strict`
enabled the check still runs and can raise a fatal error even with
activate off. -/
theorem deactivated_passthrough (sched : Except MHAErr SchedPolicy) (ac : AcSpace)
    (st : plugin_state) (hoff : st.activate = false)
    (hchk : st.is_first_run = false ∨ st.rt_strict = false ∨
            sched = .ok .sched_other) :
    plugin_process sched ac st =
      .ok ((if st.is_first_run ∧ st.rt_strict then {st with is_first_run := false}
            else st), [], []) := by
  have hrt : rt_check sched st =
      .ok (if st.is_first_run ∧ st.rt_strict then {st with is_first_run := false}
           else st) := by
    unfold rt_check
    by_cases h1 : st.is_first_run = true
    · by_cases h2 : st.rt_strict = true
      · have hs : sched = .ok .sched_other := by
          rcases hchk with h | h | h
          · rw [h1] at h; exact absurd h (by simp)
          · rw [h2] at h; exact absurd h (by simp)
          · exact h
        subst hs
        simp [h1, h2]
      · simp only [Bool.not_eq_true] at h2
        simp [h1, h2]
    · simp only [Bool.not_eq_true] at h1
      simp [h1]
  unfold plugin_process
  rw [hrt]
  simp only [ok_bind]
  by_cases hc : st.is_first_run ∧ st.rt_strict <;> simp [hc, hoff]

/-- Witness for the amended Claim C3: very first call with `rt_strict`
on from a non-real-time thread, activate off — no error, nothing
reconciled or sent, only the first-run flag consumed. -/
theorem deactivated_passthrough_witness :
    plugin_process (.ok .sched_other) (fun _ => none) ⟨true, true, false, cfg0⟩ =
      .ok (⟨false, true, false, cfg0⟩, [], []) :=
  deactivated_passthrough _ _ _ rfl (Or.inr (Or.inr rfl))

/-- Claim C4: for the supported type tags Int32, Float32, Float64 and
DomainReal the factory builds an adapter whose stream channel count
equals the element count; for DomainComplex it equals twice the element
count; any other type tag fails with the unknown-type error. -/
theorem factory_channel_counts (name : String) (srate : ℚ) (sid : String)
    (v : comm_var_t) :
    ((v.data_type = MHA_AC_INT ∨ v.data_type = MHA_AC_FLOAT ∨
      v.data_type = MHA_AC_DOUBLE ∨ v.data_type = MHA_AC_MHAREAL) →
      ∃ a, make_var name srate sid v = .ok a ∧
        a.info.channel_count = v.num_entries) ∧
    (v.data_type = MHA_AC_MHACOMPLEX →
      ∃ a, make_var name srate sid v = .ok a ∧
        a.info.channel_count = 2 * v.num_entries) ∧
    (v.data_type ≠ MHA_AC_INT → v.data_type ≠ MHA_AC_FLOAT →
     v.data_type ≠ MHA_AC_DOUBLE → v.data_type ≠ MHA_AC_MHAREAL →
     v.data_type ≠ MHA_AC_MHACOMPLEX →
      make_var name srate sid v = .error (.unknownType v.data_type)) := by
  refine ⟨?_, ?_, ?_⟩
  · intro hsupp
    rcases hsupp with h | h | h | h
    · exact ⟨⟨⟨name, "MHA_AC_INT", v.num_entries, srate, sid⟩, v.data, v.data_type⟩,
        by simp [make_var, h, MHA_AC_INT], rfl⟩
    · exact ⟨⟨⟨name, "MHA_AC_FLOAT", v.num_entries, srate, sid⟩, v.data, v.data_type⟩,
        by simp [make_var, h, MHA_AC_INT, MHA_AC_FLOAT], rfl⟩
    · exact ⟨⟨⟨name, "MHA_AC_DOUBLE", v.num_entries, srate, sid⟩, v.data, v.data_type⟩,
        by simp [make_var, h, MHA_AC_INT, MHA_AC_FLOAT, MHA_AC_DOUBLE], rfl⟩
    · exact ⟨⟨⟨name, "MHA_AC_MHAREAL", v.num_entries, srate, sid⟩, v.data, v.data_type⟩,
        by simp [make_var, h, MHA_AC_INT, MHA_AC_FLOAT, MHA_AC_DOUBLE,
                 MHA_AC_MHAREAL], rfl⟩
  · intro h
    exact ⟨⟨⟨name, "MHA_AC_COMPLEX", 2 * v.num_entries, srate, sid⟩, v.data,
            MHA_AC_MHACOMPLEX⟩,
      by simp [make_var, h, MHA_AC_INT, MHA_AC_FLOAT, MHA_AC_DOUBLE,
               MHA_AC_MHAREAL, MHA_AC_MHACOMPLEX], rfl⟩
  · intro h1 h2 h3 h4 h5
    simp [make_var, h1, h2, h3, h4, h5]

/-- Witness for Claim C4: the unsupported tag `MHA_AC_CHAR` is rejected
with the unknown-type error. -/
theorem factory_channel_counts_witness :
    make_var "u" 1 "" ⟨MHA_AC_CHAR, 3, 0⟩ = .error (.unknownType MHA_AC_CHAR) :=
  (factory_channel_counts "u" 1 "" ⟨MHA_AC_CHAR, 3, 0⟩).2.2 (by decide) (by decide)
    (by decide) (by decide) (by decide)

/-- Claim C5: for a DomainComplex variable with `n` entries whose buffer
holds the complex values (re₀,im₀),…, `send_frame` pushes exactly one
sample of the `2n` scalars in the interleaved order re₀, im₀, re₁, im₁,
…, never split into separate real and imaginary streams. -/
theorem complex_send_frame_interleaved (name : String) (srate : ℚ) (sid : String)
    (n : Nat) (addr : Nat) (a : save_var) (mem : Mem) (p : List (ℚ × ℚ))
    (hlen : p.length = n)
    (hbuild : make_var name srate sid ⟨MHA_AC_MHACOMPLEX, n, addr⟩ = .ok a)
    (hmem : pairs_at mem addr p) :
    send_frame mem a = p.flatMap (fun q => [q.1, q.2]) := by
  simp only [make_var, MHA_AC_INT, MHA_AC_FLOAT, MHA_AC_DOUBLE, MHA_AC_MHAREAL,
             MHA_AC_MHACOMPLEX] at hbuild
  norm_num at hbuild
  rw [← hbuild]
  unfold send_frame
  have : (⟨⟨name, "MHA_AC_COMPLEX", 2 * n, srate, sid⟩, addr,
          MHA_AC_MHACOMPLEX⟩ : save_var).info.channel_count = 2 * p.length := by
    simp [hlen]
  show push_sample mem addr _ = _
  rw [this]
  exact pairs_read p mem addr hmem

/-- Witness for Claim C5: three complex values (1,2), (3,4), (5,6) at
address 0 are pushed as the single six-scalar sample [1,2,3,4,5,6]. -/
theorem complex_send_frame_interleaved_witness :
    send_frame mem6 aC5 = [1, 2, 3, 4, 5, 6] :=
  (complex_send_frame_interleaved "spec" 1 "" 3 0 aC5 mem6
      [(1, 2), (3, 4), (5, 6)] rfl rfl
      (by unfold pairs_at; decide)).trans (by decide)

/-- Claim C6: the throttle state machine: `skip_counter` starts at
`skip_interval`; on each `process()` cycle, if the counter is zero then
every adapter sends one sample and the counter resets to
`skip_interval`, otherwise the counter decrements and nothing is sent;
and reconciliation of every adapter runs on every cycle regardless of
whether the cycle sends. -/
theorem throttle_state_machine :
    (∀ (ac : AcSpace) (skip_ : Nat) (sid : String) (names : List String)
       (rate : ℚ) (c : cfg_t), cfg_init ac skip_ sid names rate = .ok c →
       c.skipcnt = skip_ ∧ c.skip = skip_) ∧
    (∀ (ac : AcSpace) (c : cfg_t) (r : proc_result), cfg_process ac c = .ok r →
       (update_varlist ac c.srate c.source_id c.varlist =
          .ok (r.cfg.varlist, r.actions) ∧
        r.actions.map Prod.fst = c.varlist.map Prod.fst) ∧
       (c.skipcnt = 0 → r.did_send = true ∧
          r.sent = r.cfg.varlist.map Prod.fst ∧ r.cfg.skipcnt = c.skip) ∧
       (c.skipcnt ≠ 0 → r.did_send = false ∧ r.sent = [] ∧
          r.cfg.skipcnt = c.skipcnt - 1)) := by
  constructor
  · intro ac skip_ sid names rate c h
    unfold cfg_init at h
    cases hb : build_varlist ac rate sid names with
    | error e => rw [hb] at h; simp at h
    | ok vl =>
      rw [hb] at h
      simp only [ok_bind, Except.ok.injEq] at h
      rw [← h]
      exact ⟨rfl, rfl⟩
  · intro ac c r h
    obtain ⟨h1, _, _, _, hsend, hcnt, hsent⟩ := cfg_process_spec h
    refine ⟨⟨h1, (update_varlist_names h1).2⟩, ?_, ?_⟩
    · intro hz
      rw [hsend, hcnt, hsent]
      simp [hz]
    · intro hz
      rw [hsend, hcnt, hsent]
      simp [hz]

/-- Witness for Claim C6 on the concrete skip-1 configuration. -/
theorem throttle_state_machine_witness :
    (cfgRun1.skipcnt = 1 ∧ cfgRun1.skip = 1) ∧
    update_varlist ac1 cfgRun1.srate cfgRun1.source_id cfgRun1.varlist =
      .ok (procR1.cfg.varlist, procR1.actions) ∧
    procR1.sent = [] ∧ procR1.cfg.skipcnt = cfgRun1.skipcnt - 1 := by
  have h1 := throttle_state_machine.1 ac1 1 "" ["level"] 1 cfgRun1 rfl
  have h2 := throttle_state_machine.2 ac1 cfgRun1 procR1 rfl
  exact ⟨h1, h2.1.1, (h2.2.2 (by decide)).2.1, (h2.2.2 (by decide)).2.2⟩

/-- Claim C7 counterexample: a DomainComplex adapter built when the
variable had one entry (2-channel stream) meets a descriptor with two
entries at a new address.  The first pass only repoints the address
(the anomalous `num_entries` comparison fires), and the second pass —
with the descriptor completely unchanged — performs a rebuild, so
reconciliation is not idempotent on an unchanged catalogue. -/
theorem reconcile_repoint_then_rebuild :
    update_var "spec" 1 "" aCx2 ⟨MHA_AC_MHACOMPLEX, 2, 7⟩ =
      .ok ({aCx2 with buf := 7}, .set_address 7) ∧
    update_var "spec" 1 "" {aCx2 with buf := 7} ⟨MHA_AC_MHACOMPLEX, 2, 7⟩ =
      .ok (⟨⟨"spec", "MHA_AC_COMPLEX", 4, 1, ""⟩, 7, MHA_AC_MHACOMPLEX⟩, .rebuild) :=
  ⟨rfl, rfl⟩

/-- Claim C7 (amended): reconciliation is idempotent on an unchanged
descriptor for every adapter whose channel count after the pass equals
the expected channel count of the descriptor — in particular for every
non-complex variable and every complex adapter not hit by the
repoint anomaly: rerunning the per-variable reconciliation performs no
rebuild and no `set_address` and leaves the adapter unchanged. -/
theorem reconcile_idempotent_consistent (name : String) (srate : ℚ) (sid : String)
    (a a1 : save_var) (v : comm_var_t) (act : recon_action)
    (h : update_var name srate sid a v = .ok (a1, act))
    (hch : a1.info.channel_count = expected_channel_count v) :
    update_var name srate sid a1 v = .ok (a1, .noop) := by
  unfold update_var at h
  split_ifs at h with h1 h2 h3
  · simp only [Except.ok.injEq, Prod.mk.injEq] at h
    obtain ⟨hbuf, hchan, htype⟩ := h1
    unfold update_var
    rw [if_neg (by rw [← h.1]; simp), if_neg (by rw [← h.1]; simp [htype]),
        if_neg (by rw [hch]; simp)]
  · cases hm : make_var name srate sid v with
    | error e => rw [hm] at h; simp [Except.map] at h
    | ok a' =>
      rw [hm] at h
      simp only [Except.map, Except.ok.injEq, Prod.mk.injEq] at h
      obtain ⟨hbuf, htype, hchan, _⟩ := make_var_spec hm
      unfold update_var
      rw [if_neg (by rw [← h.1]; simp [hbuf]),
          if_neg (by rw [← h.1]; simp [htype]),
          if_neg (by rw [← h.1, hchan]; simp)]
  · cases hm : make_var name srate sid v with
    | error e => rw [hm] at h; simp [Except.map] at h
    | ok a' =>
      rw [hm] at h
      simp only [Except.map, Except.ok.injEq, Prod.mk.injEq] at h
      obtain ⟨hbuf, htype, hchan, _⟩ := make_var_spec hm
      unfold update_var
      rw [if_neg (by rw [← h.1]; simp [hbuf]),
          if_neg (by rw [← h.1]; simp [htype]),
          if_neg (by rw [← h.1, hchan]; simp)]
  · simp only [Except.ok.injEq, Prod.mk.injEq] at h
    unfold update_var
    rw [if_neg (by rw [← h.1]; exact h1), if_neg (by rw [← h.1]; exact h2),
        if_neg (by rw [← h.1]; exact h3)]

/-- Witness for the amended Claim C7: a float adapter repointed to
address 20 reconciles to a no-op on the next pass. -/
theorem reconcile_idempotent_consistent_witness :
    update_var "level" 1 "" {levelAdapter with buf := 20} ⟨MHA_AC_FLOAT, 4, 20⟩ =
      .ok ({levelAdapter with buf := 20}, .noop) :=
  reconcile_idempotent_consistent "level" 1 "" levelAdapter _ ⟨MHA_AC_FLOAT, 4, 20⟩
    (.set_address 20) rfl (by decide)

/-- Claim C8: a monitored name absent from the catalogue at
reconciliation time is fatal: the per-variable lookup raises the
missing-variable error, and a reconciliation pass over any registry
containing such a name never returns normally — the variable is never
silently dropped. -/
theorem missing_variable_fatal (ac : AcSpace) (srate : ℚ) (sid : String) :
    (∀ (name : String) (a : save_var), ac name = none →
      reconcile_entry ac srate sid name a = .error (.noSuchVariable name)) ∧
    (∀ (vl : List (String × save_var)) (name : String) (a : save_var),
      (name, a) ∈ vl → ac name = none →
      ∀ res, update_varlist ac srate sid vl ≠ .ok res) := by
  constructor
  · intro name a hnone
    unfold reconcile_entry
    rw [hnone]
  · intro vl
    induction vl with
    | nil => intro name a hmem; simp at hmem
    | cons hd tl ih =>
      intro name a hmem hnone res h
      obtain ⟨m, b⟩ := hd
      simp only [update_varlist] at h
      cases hre : reconcile_entry ac srate sid m b with
      | error e => rw [hre] at h; simp at h
      | ok pa =>
        rw [hre] at h
        cases hrest : update_varlist ac srate sid tl with
        | error e => rw [hrest] at h; simp at h
        | ok pr =>
          rcases List.mem_cons.mp hmem with heq | htl
          · injection heq with hm hb2
            rw [← hm] at hre
            unfold reconcile_entry at hre
            rw [hnone] at hre
            exact absurd hre (by simp)
          · exact ih name a htl hnone pr hrest

/-- Witness for Claim C8 on a one-entry registry whose variable
vanished from the catalogue. -/
theorem missing_variable_fatal_witness :
    reconcile_entry (fun _ => none) 1 "" "gone" levelAdapter =
      .error (.noSuchVariable "gone") ∧
    update_varlist (fun _ => none) 1 "" [("gone", levelAdapter)] ≠
      .ok ([("gone", levelAdapter)], [("gone", recon_action.noop)]) :=
  ⟨(missing_variable_fatal (fun _ => none) 1 "").1 "gone" levelAdapter rfl,
   (missing_variable_fatal (fun _ => none) 1 "").2 [("gone", levelAdapter)]
     "gone" levelAdapter (by simp) rfl _⟩

/-- Claim C9: catalogue enumeration always terminates: it doubles the
buffer on each "buffer too small" return, succeeds for any listing that
fits within the 1 MiB ceiling (returning a buffer that accommodates it;
a 300 KiB listing succeeds with a 512 KiB buffer), and raises the fatal
discovery-overflow error instead of retrying forever once the buffer
would exceed 1 MiB. -/
theorem enumeration_buffer_growth (B : Nat) :
    (B ≤ 1048576 →
      ∃ len, get_all_names false B = .ok len ∧ B ≤ len ∧ len ≤ 1048576) ∧
    (1048576 < B → get_all_names false B = .error .discoveryOverflow) ∧
    get_all_names false 307200 = .ok 524288 := by
  refine ⟨?_, ?_, ?_⟩
  · intro hB
    exact get_all_names_aux_le hB 11 0 (by norm_num) (by norm_num)
  · intro hB
    exact get_all_names_aux_overflow hB 11 0 (by norm_num)
  · rw [get_all_names]
    repeat first
      | (rw [get_all_names_aux]; norm_num)
      | norm_num

/-- Witness for Claim C9: a 2 MB listing fails with the
discovery-overflow error. -/
theorem enumeration_buffer_growth_witness :
    get_all_names false 2000000 = .error .discoveryOverflow :=
  (enumeration_buffer_growth 2000000).2.1 (by norm_num)

/-- Claim C10: every adapter built in a configuration epoch advertises
not the pipeline rate but the pipeline sampling rate divided by the
fragment size and further divided by (skip_interval + 1); the
configuration also stores that rate for later rebuilds, distinct skip
values yield distinct advertised rates (so changing skip rebuilds every
stream with a different declared rate), and with a nontrivial fragment
size or throttle the advertised rate is strictly below the pipeline
rate. -/
theorem stream_rate_throttled (ac : AcSpace) (srate : ℚ) (fragsize skip_ : Nat)
    (sid : String) (names : List String) (c : cfg_t)
    (h : ac2lsl_update ac srate fragsize skip_ sid names = .ok c) :
    (∀ p ∈ c.varlist,
      p.2.info.srate = srate / (fragsize : ℚ) / ((skip_ : ℚ) + 1)) ∧
    c.srate = srate / (fragsize : ℚ) / ((skip_ : ℚ) + 1) ∧
    (∀ k₁ k₂ : Nat, srate ≠ 0 → fragsize ≠ 0 → k₁ ≠ k₂ →
      update_rate srate fragsize k₁ ≠ update_rate srate fragsize k₂) ∧
    (0 < srate → 1 ≤ fragsize → 1 ≤ skip_ →
      update_rate srate fragsize skip_ < srate) := by
  unfold ac2lsl_update cfg_init at h
  cases hb : build_varlist ac (update_rate srate fragsize skip_) sid names with
  | error e => rw [hb] at h; simp at h
  | ok vl =>
    rw [hb] at h
    simp only [ok_bind, Except.ok.injEq] at h
    refine ⟨?_, ?_, ?_, ?_⟩
    · intro p hp
      rw [← h] at hp
      exact build_varlist_srate hb p hp
    · rw [← h]; rfl
    · intro k₁ k₂ hs hf hne heq
      unfold update_rate at heq
      have hf' : (fragsize : ℚ) ≠ 0 := Nat.cast_ne_zero.mpr hf
      have hq : srate / (fragsize : ℚ) ≠ 0 := div_ne_zero hs hf'
      have hk₁ : ((k₁ : ℚ) + 1) ≠ 0 := by positivity
      have hk₂ : ((k₂ : ℚ) + 1) ≠ 0 := by positivity
      rw [div_eq_div_iff hk₁ hk₂] at heq
      have : (k₂ : ℚ) + 1 = (k₁ : ℚ) + 1 := mul_left_cancel₀ hq heq
      have : (k₂ : ℚ) = (k₁ : ℚ) := by linarith
      exact hne (by exact_mod_cast this.symm)
    · intro hs hf hk
      unfold update_rate
      rw [div_div]
      apply div_lt_self hs
      have h1 : (1 : ℚ) ≤ (fragsize : ℚ) := by exact_mod_cast hf
      have h2 : (2 : ℚ) ≤ (skip_ : ℚ) + 1 := by
        have : (1 : ℚ) ≤ (skip_ : ℚ) := by exact_mod_cast hk
        linarith
      nlinarith

/-- Witness for Claim C10 at pipeline rate 48000, fragment size 64,
skip 1: the stored rate is 48000/64/2. -/
theorem stream_rate_throttled_witness :
    c10cfg.srate = (48000 : ℚ) / ((64 : Nat) : ℚ) / (((1 : Nat) : ℚ) + 1) :=
  (stream_rate_throttled ac1 48000 64 1 "" ["level"] c10cfg rfl).2.1

end Ac2lsl
